import Mathlib

/-!
Verification of the Trakka timesheet workflow core against its
natural-language specification.

The definitions below are a shallow embedding of the Python/Django source
(`timesheet/models.py`, `timesheet/views.py`, `adminpanel/views.py`):

* Django model rows become Lean structures; primary keys and user ids are
  `Nat`; datetimes are `Nat` seconds; calendar dates are `Nat` day numbers
  chosen so that day `0` is a Monday, matching Python's `date.weekday()`
  Monday-is-0 convention, so `weekday d = d % 7`.
* Each view's POST path becomes a pure function from the relevant rows
  (plus the caller and the clock values the view reads) to either an error
  condition or the updated rows.  A view that reads `timezone.now()` or
  `datetime.now()` several times receives one parameter per clock read.
* Python `round(x, 2)` on the hour values is modelled as round-half-even
  on `ℚ` (for values of the form `m / 60` the tie branch is unreachable,
  since `100 * m / 60 = 5 * m / 3` is never half an odd integer, so any
  tie-breaking convention agrees and binary-float error, ≪ 1/600, cannot
  cross a rounding boundary).
-/

/-- Role stored on `UserProfile.role` (`timesheet/models.py`). -/
inductive Role where
  | WORKER
  | MANAGER
  | ADMIN
deriving DecidableEq, Repr

/-- Status of a `TimeEntry` (`timesheet/models.py`, `STATUS_CHOICES`). -/
inductive EntryStatus where
  | PENDING
  | APPROVED
  | REJECTED
deriving DecidableEq, Repr

/-- Status of a `WeeklyTimesheet` (`timesheet/models.py`, `STATUS_CHOICES`). -/
inductive SheetStatus where
  | DRAFT
  | SUBMITTED
  | APPROVED
  | REJECTED
deriving DecidableEq, Repr

/-- Kind of a `TimeEntry` (`timesheet/models.py`, `ENTRY_TYPES`). -/
inductive EntryType where
  | MANUAL
  | TIMER
deriving DecidableEq, Repr

/-- Failure conditions surfaced by the views (each corresponds to a
`messages.error` / `messages.warning` branch, or a 404). -/
inductive WorkflowError where
  | NotAuthorized
  | AlreadyProcessed
  | MissingReason
  | NotSubmittable
  | EmptyBundle
  | WeekNotElapsed
  | BundleNotMutable
  | TimerAlreadyRunning
  | TimerNotRunning
  | NotFound
deriving DecidableEq, Repr

/-- The authenticated caller: whether a `UserProfile` row exists for the
user (`hasattr(user, "profile")`) and with which role, and Django's
`is_superuser` flag. -/
structure UserRec where
  profile : Option Role
  is_superuser : Bool
deriving DecidableEq, Repr

/-- Row of `TimeEntry` (`timesheet/models.py`).  `weekly_timesheet` holds
the id of the owning `WeeklyTimesheet`, if attached. -/
structure TimeEntry where
  user : Nat
  project : Nat
  date : Nat
  duration_minutes : Nat
  description : String
  entry_type : EntryType
  start_time : Option Nat
  end_time : Option Nat
  status : EntryStatus
  approved_by : Option Nat
  approved_at : Option Nat
  rejection_reason : String
  weekly_timesheet : Option Nat
deriving DecidableEq, Repr

/-- Row of `WeeklyTimesheet` (`timesheet/models.py`).  The derived
aggregates `total_hours` and `entry_count` are properties computed from the
attached entries; they are deliberately not fields here, as in the source. -/
structure WeeklyTimesheet where
  id : Nat
  user : Nat
  week_start_date : Nat
  week_end_date : Nat
  status : SheetStatus
  submitted_at : Option Nat
  approved_by : Option Nat
  approved_at : Option Nat
  notes : String
  rejection_reason : String
deriving DecidableEq, Repr

/-- Row of `TimerSession` (`timesheet/models.py`).  `start_time` is in
seconds; there is no stored end time, exactly as in the source model. -/
structure TimerSession where
  id : Nat
  user : Nat
  project : Nat
  start_time : Nat
  description : String
  is_running : Bool
deriving DecidableEq, Repr

/-- The mutable store the timer views touch: all timer sessions, all weekly
timesheets, all time entries, plus fresh-id counters for row creation. -/
structure State where
  timers : List TimerSession
  sheets : List WeeklyTimesheet
  entries : List TimeEntry
  nextTimerId : Nat
  nextSheetId : Nat
deriving DecidableEq, Repr

/-- Helper `get_user_role` (`timesheet/views.py`): the profile's role if a
profile row exists, else `WORKER`. -/
def get_user_role (u : UserRec) : Role :=
  u.profile.getD .WORKER

/-- Helper `is_manager_or_admin` (`timesheet/views.py`): profile role is
MANAGER or ADMIN, or the user is a Django superuser. -/
def is_manager_or_admin (u : UserRec) : Bool :=
  (get_user_role u == .MANAGER || get_user_role u == .ADMIN) || u.is_superuser

/-- Helper `is_admin` (`timesheet/views.py`): profile role is ADMIN, or the
user is a Django superuser. -/
def is_admin (u : UserRec) : Bool :=
  get_user_role u == .ADMIN || u.is_superuser

namespace Adminpanel

/-- Helper `is_admin` (`adminpanel/views.py`): profile role is ADMIN.
Unlike the timesheet helper, there is no superuser bypass. -/
def is_admin (u : UserRec) : Bool :=
  get_user_role u == .ADMIN

end Adminpanel

/-- View `approve_weekly_timesheet` (`timesheet/views.py`, POST path).
Inputs: the caller `u` with id `uid`, the bundle row, its attached
entries, and the two `timezone.now()` reads the view performs — `now1`
when saving the bundle, `now2` inside the bulk entry update. -/
def approve_weekly_timesheet (u : UserRec) (uid : Nat) (sheet : WeeklyTimesheet)
    (entries : List TimeEntry) (now1 now2 : Nat) :
    Except WorkflowError (WeeklyTimesheet × List TimeEntry) :=
  if get_user_role u != .MANAGER && get_user_role u != .ADMIN then
    .error .NotAuthorized
  else if sheet.status != .SUBMITTED then
    .error .AlreadyProcessed
  else
    .ok ({ sheet with
            status := .APPROVED
            approved_by := some uid
            approved_at := some now1 },
         entries.map fun e =>
           { e with
              status := .APPROVED
              approved_by := some uid
              approved_at := some now2 })

/-- View `reject_weekly_timesheet` (`timesheet/views.py`, POST path).
`now1` is the `timezone.now()` read when saving the bundle, `now2` the one
inside the bulk entry update. -/
def reject_weekly_timesheet (u : UserRec) (uid : Nat) (sheet : WeeklyTimesheet)
    (entries : List TimeEntry) (reason : String) (now1 now2 : Nat) :
    Except WorkflowError (WeeklyTimesheet × List TimeEntry) :=
  if get_user_role u != .MANAGER && get_user_role u != .ADMIN then
    .error .NotAuthorized
  else if sheet.status != .SUBMITTED then
    .error .AlreadyProcessed
  else if reason == "" then
    .error .MissingReason
  else
    .ok ({ sheet with
            status := .REJECTED
            approved_by := some uid
            approved_at := some now1
            rejection_reason := reason },
         entries.map fun e =>
           { e with
              status := .REJECTED
              approved_by := some uid
              approved_at := some now2
              rejection_reason := reason })

/-- View `submit_week` (`timesheet/views.py`, POST path).  `today` is the
`timezone.now().date()` read used for the week-elapsed check, `now` the
`timezone.now()` stored as the submission timestamp. -/
def submit_week (sheet : WeeklyTimesheet) (entries : List TimeEntry)
    (today : Nat) (notes : String) (now : Nat) :
    Except WorkflowError (WeeklyTimesheet × List TimeEntry) :=
  if sheet.status != .DRAFT && sheet.status != .REJECTED then
    .error .NotSubmittable
  else if entries.length == 0 then
    .error .EmptyBundle
  else if today ≤ sheet.week_end_date then
    .error .WeekNotElapsed
  else
    .ok ({ sheet with
            status := .SUBMITTED
            submitted_at := some now
            notes := notes },
         entries.map fun e => { e with status := .PENDING })

/-- State of a bundle and its attached entries after a bundle operation: a
failing operation performs no write, so the rows are unchanged. -/
def bundleStateAfter (sheet : WeeklyTimesheet) (entries : List TimeEntry)
    (r : Except WorkflowError (WeeklyTimesheet × List TimeEntry)) :
    WeeklyTimesheet × List TimeEntry :=
  match r with
  | .ok p => p
  | .error _ => (sheet, entries)

/-- Property `TimerSession.duration_minutes` (`timesheet/models.py`): for a
running session, the truncated whole minutes between the clock read
`nowSec` (the `datetime.now()` inside the property) and the start time;
for a stopped session the property returns `0`. -/
def timerDuration (t : TimerSession) (nowSec : Nat) : Nat :=
  if t.is_running then (nowSec - t.start_time) / 60 else 0

/-- Day number of a timestamp in seconds (`datetime.date()`); day `0` is a
Monday. -/
def dateOf (sec : Nat) : Nat :=
  sec / 86400

/-- Monday of the week containing day `d`:
`date - timedelta(days=date.weekday())` with Monday = 0. -/
def weekStartOf (d : Nat) : Nat :=
  d - d % 7

/-- Lookup of an existing `WeeklyTimesheet` row by the unique pair
`(user, week_start_date)`. -/
def findSheet (sheets : List WeeklyTimesheet) (owner ws : Nat) :
    Option WeeklyTimesheet :=
  sheets.find? fun sh => sh.user == owner && sh.week_start_date == ws

/-- `WeeklyTimesheet.objects.get_or_create(user=..., week_start_date=...,
defaults={"week_end_date": ..., "status": "DRAFT"})` as used by the views:
returns the existing row for `(owner, ws)`, or creates a fresh DRAFT row. -/
def getOrCreateSheet (s : State) (owner ws we : Nat) :
    State × WeeklyTimesheet :=
  match findSheet s.sheets owner ws with
  | some sh => (s, sh)
  | none =>
    let sh : WeeklyTimesheet :=
      { id := s.nextSheetId, user := owner, week_start_date := ws,
        week_end_date := we, status := .DRAFT, submitted_at := none,
        approved_by := none, approved_at := none, notes := "",
        rejection_reason := "" }
    ({ s with sheets := s.sheets ++ [sh], nextSheetId := s.nextSheetId + 1 },
     sh)

/-- Flip `is_running` to false on the timer row with id `pk`
(`timer.is_running = False; timer.save()`). -/
def stopTimer (s : State) (pk : Nat) : State :=
  { s with
      timers := s.timers.map fun t =>
        if t.id == pk then { t with is_running := false } else t }

/-- View `timer_start` (`timesheet/views.py`, POST path with a valid form):
fails if a running session already exists for the caller, else creates a
new running session starting now. -/
def timer_start (s : State) (owner proj nowSec : Nat) (desc : String) :
    State × Except WorkflowError Unit :=
  match s.timers.find? (fun t => t.user == owner && t.is_running) with
  | some _ => (s, .error .TimerAlreadyRunning)
  | none =>
    ({ s with
        timers := s.timers ++
          [{ id := s.nextTimerId, user := owner, project := proj,
             start_time := nowSec, description := desc, is_running := true }]
        nextTimerId := s.nextTimerId + 1 },
     .ok ())

/-- View `timer_stop` (`timesheet/views.py`, POST path).  `owner` is the
caller's id (`get_object_or_404(TimerSession, pk=pk, user=request.user)`),
`nowSec` models the clock reads of the request (the `timezone.now()`
stored as `end_time` and the `datetime.now()` inside the duration
property, taken at the same instant).  On the not-mutable branch the timer
is stopped and no entry is created; on success a PENDING TIMER entry is
created and attached to the resolved bundle, then the timer is stopped. -/
def timer_stop (s : State) (owner pk nowSec : Nat) :
    State × Except WorkflowError Unit :=
  match s.timers.find? (fun t => t.id == pk && t.user == owner) with
  | none => (s, .error .NotFound)
  | some t =>
    if !t.is_running then (s, .error .TimerNotRunning)
    else
      let duration := timerDuration t nowSec
      let entryDate := dateOf t.start_time
      let ws := weekStartOf entryDate
      let p := getOrCreateSheet s owner ws (ws + 6)
      if p.2.status != .DRAFT && p.2.status != .REJECTED then
        (stopTimer p.1 pk, .error .BundleNotMutable)
      else
        let e : TimeEntry :=
          { user := owner, project := t.project, date := entryDate,
            duration_minutes := duration,
            description :=
              if t.description == "" then
                "Timer session: " ++ toString t.start_time
              else t.description,
            entry_type := .TIMER, start_time := some t.start_time,
            end_time := some nowSec, status := .PENDING,
            approved_by := none, approved_at := none,
            rejection_reason := "", weekly_timesheet := some p.2.id }
        (stopTimer { p.1 with entries := p.1.entries ++ [e] } pk, .ok ())

/-- One timer-subsystem request: a `timer_start` or a `timer_stop` with its
inputs. -/
inductive TimerOp where
  | start (owner proj nowSec : Nat) (desc : String)
  | stop (owner pk nowSec : Nat)
deriving DecidableEq, Repr

/-- Effect of one timer request on the store (the surfaced outcome is
dropped; a failing request leaves the store unchanged by construction of
`timer_start` and `timer_stop`). -/
def runTimerOp (s : State) (op : TimerOp) : State :=
  match op with
  | .start owner proj nowSec desc => (timer_start s owner proj nowSec desc).1
  | .stop owner pk nowSec => (timer_stop s owner pk nowSec).1

/-- Effect of a sequence of timer requests, in order. -/
def runTimerOps (s : State) (ops : List TimerOp) : State :=
  ops.foldl runTimerOp s

/-- Number of `TimerSession` rows with `running = true` for `owner` — the
quantity the mutual-exclusion invariant bounds. -/
def runningCount (timers : List TimerSession) (owner : Nat) : Nat :=
  (timers.filter fun t => t.user == owner && t.is_running).length

/-- View `timesheet_update` (`timesheet/views.py`): the permission checks
guarding edit of entry `e` by caller `u` (id `uid`).  `attached` is the
`WeeklyTimesheet` row the entry's `weekly_timesheet` foreign key resolves
to (`none` when no bundle is attached).  Returns `true` when the view
proceeds to the edit form. -/
def timesheet_update_allowed (u : UserRec) (uid : Nat) (e : TimeEntry)
    (attached : Option WeeklyTimesheet) : Bool :=
  if get_user_role u == .WORKER && e.user != uid then false
  else if e.status == .APPROVED && !is_admin u then false
  else
    match attached with
    | some sh =>
      if (sh.status != .DRAFT && sh.status != .REJECTED) && !is_admin u then
        false
      else true
    | none => true

/-- View `timesheet_delete` (`timesheet/views.py`): the permission checks
guarding deletion, duplicated in the source from `timesheet_update`. -/
def timesheet_delete_allowed (u : UserRec) (uid : Nat) (e : TimeEntry)
    (attached : Option WeeklyTimesheet) : Bool :=
  if get_user_role u == .WORKER && e.user != uid then false
  else if e.status == .APPROVED && !is_admin u then false
  else
    match attached with
    | some sh =>
      if (sh.status != .DRAFT && sh.status != .REJECTED) && !is_admin u then
        false
      else true
    | none => true

/-- Python `round(x, 2)`: round to 2 decimal places, half to even. -/
def round2 (q : ℚ) : ℚ :=
  if q * 100 - ⌊q * 100⌋ < 1 / 2 then (⌊q * 100⌋ : ℚ) / 100
  else if 1 / 2 < q * 100 - ⌊q * 100⌋ then ((⌊q * 100⌋ : ℚ) + 1) / 100
  else
    (if ⌊q * 100⌋ % 2 = 0 then (⌊q * 100⌋ : ℚ) else (⌊q * 100⌋ : ℚ) + 1) / 100

/-- Property `TimeEntry.duration_hours` (`timesheet/models.py`):
`round(duration_minutes / 60, 2)`.  This is also the spec's
`toHours(minutes)` conversion. -/
def duration_hours (m : Nat) : ℚ :=
  round2 ((m : ℚ) / 60)

/-- Property `WeeklyTimesheet.total_hours` (`timesheet/models.py`):
`sum(entry.duration_hours for entry in self.time_entries.all())`, the sum
of the attached entries' individually rounded hour values. -/
def sheet_total_hours (entries : List TimeEntry) : ℚ :=
  (entries.map fun e => duration_hours e.duration_minutes).sum

/-- Property `Project.total_hours` (`timesheet/models.py`):
`sum(entry.duration_hours for entry in self.time_entries.all())` over the
project's entries. -/
def project_total_hours (pid : Nat) (entries : List TimeEntry) : ℚ :=
  ((entries.filter fun e => e.project == pid).map
    fun e => duration_hours e.duration_minutes).sum

/-- Property `WeeklyTimesheet.entry_count` (`timesheet/models.py`):
`self.time_entries.count()`. -/
def entry_count (entries : List TimeEntry) : Nat :=
  entries.length

/-- Sum of the durations of a collection of entries, in whole minutes. -/
def minuteSum (entries : List TimeEntry) : Nat :=
  (entries.map fun e => e.duration_minutes).sum

/-- The aggregate as the specification describes it: sum the attached
entries' durations in minutes first, then convert to hours (rounded to two
decimals) exactly once at the boundary. -/
def specAggregateHours (entries : List TimeEntry) : ℚ :=
  round2 ((minuteSum entries : ℚ) / 60)

/-- The error surfaced by a view outcome, if any. -/
def errorOf {α : Type} (r : Except WorkflowError α) : Option WorkflowError :=
  match r with
  | .error e => some e
  | .ok _ => none

/-- C10: role resolution defaults an actor with no profile row to WORKER;
the timesheet helpers `is_manager_or_admin` and `is_admin` additionally
treat a Django superuser as manager/admin regardless of the profile role,
while the adminpanel `is_admin` grants access only on an ADMIN profile
role, with no superuser bypass; each decision is a function of (profile
presence, profile role, superuser flag) alone. -/
theorem role_resolution_spec :
    ∀ u : UserRec,
      (u.profile = none → get_user_role u = .WORKER)
      ∧ (is_manager_or_admin u = true ↔
          (get_user_role u = .MANAGER ∨ get_user_role u = .ADMIN ∨
            u.is_superuser = true))
      ∧ (is_admin u = true ↔
          (get_user_role u = .ADMIN ∨ u.is_superuser = true))
      ∧ (Adminpanel.is_admin u = true ↔ get_user_role u = .ADMIN) := by
  intro u
  rcases u with ⟨p, su⟩
  cases p with
  | none => cases su <;> decide
  | some r => cases r <;> cases su <;> decide

/-- Witness for `role_resolution_spec` at a profile-less superuser. -/
theorem role_resolution_spec_witness :
    get_user_role ⟨none, true⟩ = .WORKER
    ∧ is_manager_or_admin ⟨none, true⟩ = true :=
  ⟨(role_resolution_spec ⟨none, true⟩).1 rfl,
   ((role_resolution_spec ⟨none, true⟩).2.1).mpr (Or.inr (Or.inr rfl))⟩

/-- C3: with the bundle in a submittable status (DRAFT or REJECTED),
`submit_week` fails with `EmptyBundle` when the bundle has no entries,
fails with `WeekNotElapsed` while today is on or before the week-end date,
succeeds exactly from the day after, and every failure leaves the bundle
and its entries unchanged. -/
theorem submit_week_preconditions :
    ∀ (sheet : WeeklyTimesheet) (entries : List TimeEntry)
      (today : Nat) (notes : String) (now : Nat),
      (sheet.status = .DRAFT ∨ sheet.status = .REJECTED) →
      ((entries = [] →
          submit_week sheet entries today notes now = .error .EmptyBundle)
        ∧ (entries ≠ [] → today ≤ sheet.week_end_date →
            submit_week sheet entries today notes now = .error .WeekNotElapsed)
        ∧ (entries ≠ [] → sheet.week_end_date < today →
            (submit_week sheet entries today notes now).toOption ≠ none)
        ∧ (∀ err, submit_week sheet entries today notes now = .error err →
            bundleStateAfter sheet entries
              (submit_week sheet entries today notes now) =
              (sheet, entries))) := by
  intro sheet entries today notes now h
  have hs : (sheet.status != .DRAFT && sheet.status != .REJECTED) = false := by
    rcases h with h | h <;> simp [h]
  refine ⟨?_, ?_, ?_, ?_⟩
  · intro he
    subst he
    simp [submit_week, hs]
  · intro hne hle
    have hlen : (entries.length == 0) = false := by
      simpa using hne
    simp [submit_week, hs, hlen, hle]
  · intro hne hlt
    have hlen : (entries.length == 0) = false := by
      simpa using hne
    have : ¬ today ≤ sheet.week_end_date := by omega
    simp [submit_week, hs, hlen, this, Except.toOption]
  · intro err herr
    simp [herr, bundleStateAfter]

/-- Witness for `submit_week_preconditions`: a DRAFT bundle for the week
of days 0–6, one entry, attempted on day 3 (inside the week), fails with
`WeekNotElapsed`; the same bundle with no entries fails `EmptyBundle`. -/
theorem submit_week_preconditions_witness :
    submit_week ⟨1, 7, 0, 6, .DRAFT, none, none, none, "", ""⟩
        [⟨7, 3, 2, 60, "w", .MANUAL, none, none, .PENDING, none, none, "",
          some 1⟩] 3 "" 900 = .error .WeekNotElapsed
    ∧ submit_week ⟨1, 7, 0, 6, .DRAFT, none, none, none, "", ""⟩ [] 9 "" 900 =
        .error .EmptyBundle :=
  ⟨(submit_week_preconditions ⟨1, 7, 0, 6, .DRAFT, none, none, none, "", ""⟩
      [⟨7, 3, 2, 60, "w", .MANUAL, none, none, .PENDING, none, none, "",
        some 1⟩] 3 "" 900 (Or.inl rfl)).2.1 (by decide) (by decide),
   (submit_week_preconditions ⟨1, 7, 0, 6, .DRAFT, none, none, none, "", ""⟩
      [] 9 "" 900 (Or.inl rfl)).1 rfl⟩

/-- C4: `submit_week` is legal only from DRAFT or REJECTED (anything else
is rejected outright), and on success the bundle becomes SUBMITTED with
the submission timestamp and notes stored, and every attached entry —
whatever its prior status — has its status reset to PENDING. -/
theorem submit_week_success_effects :
    ∀ (sheet : WeeklyTimesheet) (entries : List TimeEntry)
      (today : Nat) (notes : String) (now : Nat),
      ((sheet.status ≠ .DRAFT ∧ sheet.status ≠ .REJECTED) →
        submit_week sheet entries today notes now = .error .NotSubmittable)
      ∧ (∀ sheet2 entries2,
          submit_week sheet entries today notes now = .ok (sheet2, entries2) →
          (sheet.status = .DRAFT ∨ sheet.status = .REJECTED)
          ∧ sheet2.status = .SUBMITTED
          ∧ sheet2.submitted_at = some now
          ∧ sheet2.notes = notes
          ∧ entries2 = entries.map (fun e => { e with status := .PENDING })
          ∧ (∀ e ∈ entries2, e.status = .PENDING)) := by
  intro sheet entries today notes now
  constructor
  · intro h
    simp [submit_week, h.1, h.2]
  · intro sheet2 entries2 hok
    by_cases hs : (sheet.status != .DRAFT && sheet.status != .REJECTED) = true
    · simp [submit_week, hs] at hok
    · have hs2 : sheet.status = .DRAFT ∨ sheet.status = .REJECTED := by
        rcases sheet with ⟨_, _, _, _, st, _, _, _, _, _⟩
        cases st <;> simp_all
      by_cases hlen : (entries.length == 0) = true
      · simp [submit_week, hs, hlen] at hok
      · by_cases hle : today ≤ sheet.week_end_date
        · simp [submit_week, hs, hlen, hle] at hok
        · simp only [submit_week, hs, hlen, hle, Bool.false_eq_true,
            if_false, if_neg, Except.ok.injEq, Prod.mk.injEq] at hok
          obtain ⟨h1, h2⟩ := hok
          refine ⟨hs2, ?_, ?_, ?_, h2.symm, ?_⟩
          · rw [← h1]
          · rw [← h1]
          · rw [← h1]
          · intro e he
            rw [← h2] at he
            obtain ⟨e0, _, rfl⟩ := List.mem_map.mp he
            rfl

/-- Witness for `submit_week_success_effects`: submitting a REJECTED
bundle with one previously APPROVED entry on day 9 (after week-end day 6)
succeeds and resets the entry to PENDING. -/
theorem submit_week_success_effects_witness :
    (⟨1, 7, 0, 6, .SUBMITTED, some 900, none, none, "n", "r"⟩ :
        WeeklyTimesheet).status = .SUBMITTED
    ∧ (∀ e ∈ [(⟨7, 3, 2, 60, "w", .MANUAL, none, none, .PENDING, some 9,
          some 50, "", some 1⟩ : TimeEntry)], e.status = .PENDING) :=
  have h := (submit_week_success_effects
    ⟨1, 7, 0, 6, .REJECTED, none, none, none, "", "r"⟩
    [⟨7, 3, 2, 60, "w", .MANUAL, none, none, .APPROVED, some 9, some 50, "",
      some 1⟩] 9 "n" 900).2
    ⟨1, 7, 0, 6, .SUBMITTED, some 900, none, none, "n", "r"⟩
    [⟨7, 3, 2, 60, "w", .MANUAL, none, none, .PENDING, some 9, some 50, "",
      some 1⟩] (by rfl)
  ⟨h.2.1, h.2.2.2.2.2⟩

/-- C1 counterexample: the view reads `timezone.now()` once when saving
the bundle (here `100`) and again inside the bulk entry update (here
`101`), so on success the bundle's approval timestamp (`some 100`) does
not equal the attached entry's approval timestamp (`some 101`), refuting
the claim that they are equal; the approvers do match. -/
theorem approve_weekly_timestamp_counterexample :
    (approve_weekly_timesheet ⟨some .MANAGER, false⟩ 9
        ⟨1, 7, 0, 6, .SUBMITTED, some 50, none, none, "", ""⟩
        [⟨7, 3, 2, 60, "w", .MANUAL, none, none, .PENDING, none, none, "",
          some 1⟩] 100 101).toOption.map
        (fun p => (p.1.approved_by, p.1.approved_at,
                   p.2.map fun e => (e.approved_by, e.approved_at)))
      = some (some 9, some 100, [(some 9, some 101)])
    ∧ some (100 : Nat) ≠ some 101 := by
  exact ⟨rfl, by decide⟩

/-- C1 (amended): for an authorized caller, bundle approval is legal only
from SUBMITTED — otherwise it is reported as `AlreadyProcessed` and
nothing changes; on success the bundle becomes APPROVED with approver and
timestamp set, every attached entry is forced to APPROVED with the
bundle's approver, and all entries share the timestamp of the second
clock read, which need not equal the bundle's own approval timestamp. -/
theorem approve_weekly_cascade_spec :
    ∀ (u : UserRec) (uid : Nat) (sheet : WeeklyTimesheet)
      (entries : List TimeEntry) (now1 now2 : Nat),
      (get_user_role u = .MANAGER ∨ get_user_role u = .ADMIN) →
      ((sheet.status ≠ .SUBMITTED →
          approve_weekly_timesheet u uid sheet entries now1 now2 =
            .error .AlreadyProcessed
          ∧ bundleStateAfter sheet entries
              (approve_weekly_timesheet u uid sheet entries now1 now2) =
              (sheet, entries))
        ∧ (∀ sheet2 entries2,
            approve_weekly_timesheet u uid sheet entries now1 now2 =
              .ok (sheet2, entries2) →
            sheet.status = .SUBMITTED
            ∧ sheet2.status = .APPROVED
            ∧ sheet2.approved_by = some uid
            ∧ sheet2.approved_at = some now1
            ∧ entries2.length = entries.length
            ∧ (∀ e ∈ entries2, e.status = .APPROVED
                ∧ e.approved_by = sheet2.approved_by
                ∧ e.approved_at = some now2))
        ∧ (sheet.status = .SUBMITTED →
            (approve_weekly_timesheet u uid sheet entries now1 now2).toOption
              ≠ none)) := by
  intro u uid sheet entries now1 now2 h
  have hrole : (get_user_role u != .MANAGER && get_user_role u != .ADMIN) =
      false := by
    rcases h with h | h <;> simp [h]
  refine ⟨?_, ?_, ?_⟩
  · intro hst
    have hst2 : (sheet.status != .SUBMITTED) = true := by simpa using hst
    constructor
    · simp [approve_weekly_timesheet, hrole, hst2]
    · simp [approve_weekly_timesheet, hrole, hst2, bundleStateAfter]
  · intro sheet2 entries2 hok
    by_cases hst : (sheet.status != .SUBMITTED) = true
    · simp [approve_weekly_timesheet, hrole, hst] at hok
    · have hsub : sheet.status = .SUBMITTED := by simpa using hst
      simp only [approve_weekly_timesheet, hrole, hst, Bool.false_eq_true,
        if_false, Except.ok.injEq, Prod.mk.injEq] at hok
      obtain ⟨h1, h2⟩ := hok
      refine ⟨hsub, by rw [← h1], by rw [← h1], by rw [← h1], ?_, ?_⟩
      · rw [← h2, List.length_map]
      · intro e he
        rw [← h2] at he
        obtain ⟨e0, _, rfl⟩ := List.mem_map.mp he
        exact ⟨rfl, by rw [← h1], rfl⟩
  · intro hsub
    simp [approve_weekly_timesheet, hrole, hsub, Except.toOption]

/-- Witness for `approve_weekly_cascade_spec`: a manager approving a
SUBMITTED bundle with one PENDING entry. -/
theorem approve_weekly_cascade_spec_witness :
    (⟨1, 7, 0, 6, .APPROVED, some 50, some 9, some 100, "", ""⟩ :
        WeeklyTimesheet).status = .APPROVED
    ∧ (⟨1, 7, 0, 6, .APPROVED, some 50, some 9, some 100, "", ""⟩ :
        WeeklyTimesheet).approved_by = some 9 :=
  have h := (approve_weekly_cascade_spec ⟨some .MANAGER, false⟩ 9
    ⟨1, 7, 0, 6, .SUBMITTED, some 50, none, none, "", ""⟩
    [⟨7, 3, 2, 60, "w", .MANUAL, none, none, .PENDING, none, none, "",
      some 1⟩] 100 101 (Or.inl rfl)).2.1
    ⟨1, 7, 0, 6, .APPROVED, some 50, some 9, some 100, "", ""⟩
    [⟨7, 3, 2, 60, "w", .MANUAL, none, none, .APPROVED, some 9, some 101, "",
      some 1⟩] (by rfl)
  ⟨h.2.1, h.2.2.1⟩

/-- C2 counterexample: on a successful bundle rejection the bundle's
timestamp comes from one clock read (`100`) and the cascaded entries'
timestamp from a later one (`101`), so the claim that every entry carries
the same timestamp as the bundle fails; approver and reason do match. -/
theorem reject_weekly_timestamp_counterexample :
    (reject_weekly_timesheet ⟨some .MANAGER, false⟩ 9
        ⟨1, 7, 0, 6, .SUBMITTED, some 50, none, none, "", ""⟩
        [⟨7, 3, 2, 60, "w", .MANUAL, none, none, .PENDING, none, none, "",
          some 1⟩] "too vague" 100 101).toOption.map
        (fun p => (p.1.approved_by, p.1.approved_at, p.1.rejection_reason,
                   p.2.map fun e =>
                     (e.approved_by, e.approved_at, e.rejection_reason)))
      = some (some 9, some 100, "too vague",
              [(some 9, some 101, "too vague")])
    ∧ some (100 : Nat) ≠ some 101 := by
  exact ⟨rfl, by decide⟩

/-- C2 (amended): for an authorized caller, bundle rejection is legal only
from SUBMITTED, fails with `MissingReason` (and no state change) when the
reason is empty, and on success with a non-empty reason R the bundle
becomes REJECTED with approver, timestamp and reason R set, and every
attached entry is forced to REJECTED with `rejection_reason = R` and the
bundle's approver; the entries share the timestamp of the second clock
read, which need not equal the bundle's. -/
theorem reject_weekly_cascade_spec :
    ∀ (u : UserRec) (uid : Nat) (sheet : WeeklyTimesheet)
      (entries : List TimeEntry) (reason : String) (now1 now2 : Nat),
      (get_user_role u = .MANAGER ∨ get_user_role u = .ADMIN) →
      ((sheet.status ≠ .SUBMITTED →
          reject_weekly_timesheet u uid sheet entries reason now1 now2 =
            .error .AlreadyProcessed)
        ∧ (reason = "" → sheet.status = .SUBMITTED →
            reject_weekly_timesheet u uid sheet entries reason now1 now2 =
              .error .MissingReason
            ∧ bundleStateAfter sheet entries
                (reject_weekly_timesheet u uid sheet entries reason now1
                  now2) = (sheet, entries))
        ∧ (∀ sheet2 entries2,
            reject_weekly_timesheet u uid sheet entries reason now1 now2 =
              .ok (sheet2, entries2) →
            sheet.status = .SUBMITTED
            ∧ reason ≠ ""
            ∧ sheet2.status = .REJECTED
            ∧ sheet2.approved_by = some uid
            ∧ sheet2.approved_at = some now1
            ∧ sheet2.rejection_reason = reason
            ∧ entries2.length = entries.length
            ∧ (∀ e ∈ entries2, e.status = .REJECTED
                ∧ e.rejection_reason = reason
                ∧ e.approved_by = sheet2.approved_by
                ∧ e.approved_at = some now2))) := by
  intro u uid sheet entries reason now1 now2 h
  have hrole : (get_user_role u != .MANAGER && get_user_role u != .ADMIN) =
      false := by
    rcases h with h | h <;> simp [h]
  refine ⟨?_, ?_, ?_⟩
  · intro hst
    have hst2 : (sheet.status != .SUBMITTED) = true := by simpa using hst
    simp [reject_weekly_timesheet, hrole, hst2]
  · intro hr hsub
    subst hr
    constructor
    · simp [reject_weekly_timesheet, hrole, hsub]
    · simp [reject_weekly_timesheet, hrole, hsub, bundleStateAfter]
  · intro sheet2 entries2 hok
    by_cases hst : (sheet.status != .SUBMITTED) = true
    · simp [reject_weekly_timesheet, hrole, hst] at hok
    · have hsub : sheet.status = .SUBMITTED := by simpa using hst
      by_cases hr : (reason == "") = true
      · simp [reject_weekly_timesheet, hrole, hst, hr] at hok
      · have hr2 : reason ≠ "" := by simpa using hr
        simp only [reject_weekly_timesheet, hrole, hst, hr,
          Bool.false_eq_true, if_false, Except.ok.injEq, Prod.mk.injEq]
          at hok
        obtain ⟨h1, h2⟩ := hok
        refine ⟨hsub, hr2, by rw [← h1], by rw [← h1], by rw [← h1],
          by rw [← h1], ?_, ?_⟩
        · rw [← h2, List.length_map]
        · intro e he
          rw [← h2] at he
          obtain ⟨e0, _, rfl⟩ := List.mem_map.mp he
          exact ⟨rfl, rfl, by rw [← h1], rfl⟩

/-- Witness for `reject_weekly_cascade_spec`: a manager rejecting a
SUBMITTED bundle with reason "too vague". -/
theorem reject_weekly_cascade_spec_witness :
    (⟨1, 7, 0, 6, .REJECTED, some 50, some 9, some 100, "", "too vague"⟩ :
        WeeklyTimesheet).status = .REJECTED
    ∧ (⟨1, 7, 0, 6, .REJECTED, some 50, some 9, some 100, "", "too vague"⟩ :
        WeeklyTimesheet).rejection_reason = "too vague" :=
  have h := (reject_weekly_cascade_spec ⟨some .MANAGER, false⟩ 9
    ⟨1, 7, 0, 6, .SUBMITTED, some 50, none, none, "", ""⟩
    [⟨7, 3, 2, 60, "w", .MANUAL, none, none, .PENDING, none, none, "",
      some 1⟩] "too vague" 100 101 (Or.inl rfl)).2.2
    ⟨1, 7, 0, 6, .REJECTED, some 50, some 9, some 100, "", "too vague"⟩
    [⟨7, 3, 2, 60, "w", .MANUAL, none, none, .REJECTED, some 9, some 101,
      "too vague", some 1⟩] (by rfl)
  ⟨h.2.2.1, h.2.2.2.2.2.1⟩

/-- Boolean normal form of the edit/delete permission checks: ownership
(the WORKER-role ownership guard), then admin override or (entry not
APPROVED and any attached bundle in a mutable status). -/
theorem timesheet_update_allowed_eq (u : UserRec) (uid : Nat) (e : TimeEntry)
    (attached : Option WeeklyTimesheet) :
    timesheet_update_allowed u uid e attached =
      (!(get_user_role u == .WORKER && e.user != uid) &&
        (is_admin u ||
          (e.status != .APPROVED &&
            attached.all fun sh =>
              sh.status == .DRAFT || sh.status == .REJECTED))) := by
  cases attached with
  | none =>
    simp only [timesheet_update_allowed, Option.all]
    cases h1 : (get_user_role u == .WORKER && e.user != uid) <;>
      cases h2 : (e.status == .APPROVED) <;>
        cases h3 : is_admin u <;>
          simp_all
  | some sh =>
    simp only [timesheet_update_allowed, Option.all]
    cases h1 : (get_user_role u == .WORKER && e.user != uid) <;>
      cases h2 : (e.status == .APPROVED) <;>
        cases h3 : is_admin u <;>
          cases h4 : (sh.status != .DRAFT && sh.status != .REJECTED) <;>
            (simp_all; try tauto)

/-- C8 counterexample: a non-admin WORKER owner of a REJECTED entry with
no bundle attached is allowed to edit and delete it, although the entry's
status is not PENDING — the views only block APPROVED entries, so the
claim that edit/delete require `status = PENDING` (and that a non-admin
cannot touch a REJECTED entry) is false on the code. -/
theorem entry_edit_rejected_counterexample :
    timesheet_update_allowed ⟨some .WORKER, false⟩ 1
        ⟨1, 3, 2, 60, "w", .MANUAL, none, none, .REJECTED, some 9, some 50,
          "bad", none⟩ none = true
    ∧ timesheet_delete_allowed ⟨some .WORKER, false⟩ 1
        ⟨1, 3, 2, 60, "w", .MANUAL, none, none, .REJECTED, some 9, some 50,
          "bad", none⟩ none = true
    ∧ (⟨1, 3, 2, 60, "w", .MANUAL, none, none, .REJECTED, some 9, some 50,
          "bad", none⟩ : TimeEntry).status ≠ .PENDING
    ∧ is_admin ⟨some .WORKER, false⟩ = false := by
  refine ⟨rfl, rfl, by decide, rfl⟩

/-- C8 (amended): for every caller, edit and delete are governed by the
same predicate; they are permitted iff the WORKER-ownership guard passes
and either the caller is admin (the elevated override, which bypasses the
status and bundle checks) or the entry's status is not APPROVED and any
attached bundle is in a mutable status (DRAFT or REJECTED).  In
particular a non-admin cannot touch an APPROVED entry, but a REJECTED
entry with a mutable or absent bundle remains editable. -/
theorem entry_edit_delete_characterization :
    ∀ (u : UserRec) (uid : Nat) (e : TimeEntry)
      (attached : Option WeeklyTimesheet),
      timesheet_update_allowed u uid e attached =
        timesheet_delete_allowed u uid e attached
      ∧ (timesheet_update_allowed u uid e attached = true ↔
          ((get_user_role u = .WORKER → e.user = uid)
            ∧ (is_admin u = true ∨
                (e.status ≠ .APPROVED
                  ∧ ∀ sh ∈ attached,
                      sh.status = .DRAFT ∨ sh.status = .REJECTED)))) := by
  intro u uid e attached
  refine ⟨by cases attached <;> rfl, ?_⟩
  rw [timesheet_update_allowed_eq]
  cases attached with
  | none =>
    simp only [Option.all, Bool.and_eq_true, Bool.or_eq_true,
      Bool.not_eq_true', Bool.and_eq_false_iff]
    constructor
    · rintro ⟨h1, h2⟩
      refine ⟨?_, ?_⟩
      · intro hw
        rcases h1 with h1 | h1
        · simp [hw] at h1
        · simpa using h1
      · rcases h2 with h2 | h2
        · exact Or.inl h2
        · right
          refine ⟨by simpa using h2.1, ?_⟩
          intro sh hsh
          cases hsh
    · rintro ⟨h1, h2⟩
      constructor
      · by_cases hw : get_user_role u = .WORKER
        · right
          simpa using h1 hw
        · left
          simpa using hw
      · rcases h2 with h2 | ⟨h2, _⟩
        · exact Or.inl h2
        · right
          simpa using h2
  | some sh =>
    simp only [Option.all, Bool.and_eq_true, Bool.or_eq_true,
      Bool.not_eq_true', Bool.and_eq_false_iff, Option.mem_def,
      Option.some.injEq]
    constructor
    · rintro ⟨h1, h2⟩
      refine ⟨?_, ?_⟩
      · intro hw
        rcases h1 with h1 | h1
        · simp [hw] at h1
        · simpa using h1
      · rcases h2 with h2 | h2
        · exact Or.inl h2
        · right
          refine ⟨by simpa using h2.1, ?_⟩
          rintro sh2 rfl
          rcases h2.2 with h | h
          · exact Or.inl (by simpa using h)
          · exact Or.inr (by simpa using h)
    · rintro ⟨h1, h2⟩
      constructor
      · by_cases hw : get_user_role u = .WORKER
        · right
          simpa using h1 hw
        · left
          simpa using hw
      · rcases h2 with h2 | ⟨h2, h3⟩
        · exact Or.inl h2
        · right
          refine ⟨by simpa using h2, ?_⟩
          rcases h3 sh rfl with h | h
          · simp [h]
          · simp [h]

/-- Witness for `entry_edit_delete_characterization`: a WORKER owner with
a PENDING entry in a DRAFT bundle is allowed to edit. -/
theorem entry_edit_delete_characterization_witness :
    timesheet_update_allowed ⟨some .WORKER, false⟩ 1
        ⟨1, 3, 2, 60, "w", .MANUAL, none, none, .PENDING, none, none, "",
          some 4⟩
        (some ⟨4, 1, 0, 6, .DRAFT, none, none, none, "", ""⟩) = true :=
  ((entry_edit_delete_characterization ⟨some .WORKER, false⟩ 1
      ⟨1, 3, 2, 60, "w", .MANUAL, none, none, .PENDING, none, none, "",
        some 4⟩
      (some ⟨4, 1, 0, 6, .DRAFT, none, none, none, "", ""⟩)).2).mpr
    ⟨fun _ => rfl,
     Or.inr ⟨by decide, fun sh hsh => by
       rw [Option.mem_def, Option.some.injEq] at hsh
       rw [← hsh]
       exact Or.inl rfl⟩⟩

/-- C6 (code defect): `TimerSession.duration_minutes` truncates
`(now - start) / 60` with no minimum, and `timer_stop` creates the entry
through `objects.create`, which does not run the model's
`MinValueValidator(1)`.  A timer started at second 0 and stopped 30
seconds later therefore yields a TimeEntry with `duration_minutes = 0`,
violating both the claimed 1-minute floor and the model's own declared
minimum of 1; the claim's 47-minute scenario itself does round-trip
correctly (second conjunct). -/
theorem timer_stop_zero_duration_bug :
    ((timer_stop ⟨[⟨1, 7, 3, 0, "", true⟩], [], [], 2, 1⟩ 7 1 30).1.entries.map
        fun e => (e.duration_minutes, e.entry_type, e.status,
                  e.weekly_timesheet))
      = [(0, .TIMER, .PENDING, some 1)]
    ∧ (timer_stop ⟨[⟨1, 7, 3, 0, "", true⟩], [], [], 2, 1⟩ 7 1
        30).2.toOption = some ()
    ∧ ((timer_stop ⟨[⟨1, 7, 3, 0, "", true⟩], [], [], 2, 1⟩ 7 1
          2820).1.entries.map
        fun e => (e.duration_minutes, e.entry_type, e.status,
                  e.weekly_timesheet))
      = [(47, .TIMER, .PENDING, some 1)] := by
  refine ⟨by decide, by decide, by decide⟩

/-- C7 counterexample: stopping a 47-minute timer whose week already has a
SUBMITTED bundle does surface `BundleNotMutable`, stops the timer and
creates no entry — but the elapsed time IS lost: the claim says it is not.
The stopped session stores no end time and its `duration_minutes` property
returns 0, so no record in the post-state retains the 47 elapsed minutes. -/
theorem timer_stop_elapsed_lost_counterexample :
    errorOf (timer_stop ⟨[⟨1, 7, 3, 0, "", true⟩],
        [⟨5, 7, 0, 6, .SUBMITTED, some 40, none, none, "", ""⟩], [], 2, 6⟩
        7 1 2820).2 = some .BundleNotMutable
    ∧ (timer_stop ⟨[⟨1, 7, 3, 0, "", true⟩],
        [⟨5, 7, 0, 6, .SUBMITTED, some 40, none, none, "", ""⟩], [], 2, 6⟩
        7 1 2820).1.entries = []
    ∧ ((timer_stop ⟨[⟨1, 7, 3, 0, "", true⟩],
        [⟨5, 7, 0, 6, .SUBMITTED, some 40, none, none, "", ""⟩], [], 2, 6⟩
        7 1 2820).1.timers.map fun t => t.is_running) = [false]
    ∧ timerDuration ⟨1, 7, 3, 0, "", true⟩ 2820 = 47
    ∧ ((timer_stop ⟨[⟨1, 7, 3, 0, "", true⟩],
        [⟨5, 7, 0, 6, .SUBMITTED, some 40, none, none, "", ""⟩], [], 2, 6⟩
        7 1 2820).1.timers.map fun t => timerDuration t 2820) = [0] := by
  refine ⟨by decide, by decide, by decide, by decide, by decide⟩

/-- C7 (amended): when the resolved bundle for the timer's start date is
not in a mutable state, the timer is marked stopped, no TimeEntry is
created, and `BundleNotMutable` is surfaced — but the elapsed time is
lost: the session keeps no end timestamp and its `duration_minutes`
property evaluates to 0 once `is_running` is false. -/
theorem timer_stop_not_mutable_spec :
    ∀ (s : State) (owner pk nowSec : Nat) (t : TimerSession)
      (sh : WeeklyTimesheet),
      s.timers.find? (fun x => x.id == pk && x.user == owner) = some t →
      t.is_running = true →
      findSheet s.sheets owner (weekStartOf (dateOf t.start_time)) = some sh →
      sh.status ≠ .DRAFT →
      sh.status ≠ .REJECTED →
      timer_stop s owner pk nowSec = (stopTimer s pk, .error .BundleNotMutable)
      ∧ (stopTimer s pk).entries = s.entries
      ∧ (∀ t2 ∈ (stopTimer s pk).timers, t2.id = pk →
          t2.is_running = false ∧ ∀ m, timerDuration t2 m = 0) := by
  intro s owner pk nowSec t sh hfind hrun hsheet hd hr
  have hguard : (sh.status != .DRAFT && sh.status != .REJECTED) = true := by
    simp [hd, hr]
  refine ⟨?_, rfl, ?_⟩
  · rw [timer_stop, hfind]
    simp only [hrun, Bool.not_true, Bool.false_eq_true, if_false,
      getOrCreateSheet, hsheet, hguard, if_true]
  · intro t2 ht2 hid
    rw [stopTimer] at ht2
    obtain ⟨t0, _, rfl⟩ := List.mem_map.mp ht2
    by_cases h0 : (t0.id == pk) = true
    · rw [if_pos h0]
      exact ⟨rfl, fun m => by simp [timerDuration]⟩
    · rw [if_neg h0] at hid
      exact absurd (by simp [hid]) h0

/-- Witness for `timer_stop_not_mutable_spec`: stopping a running timer
whose week already has an APPROVED bundle. -/
theorem timer_stop_not_mutable_spec_witness :
    timer_stop ⟨[⟨2, 8, 4, 86400, "x", true⟩],
        [⟨9, 8, 0, 6, .APPROVED, some 40, some 9, some 41, "", ""⟩], [], 3,
        10⟩ 8 2 90000 =
      (stopTimer ⟨[⟨2, 8, 4, 86400, "x", true⟩],
        [⟨9, 8, 0, 6, .APPROVED, some 40, some 9, some 41, "", ""⟩], [], 3,
        10⟩ 2, .error .BundleNotMutable) :=
  (timer_stop_not_mutable_spec
    ⟨[⟨2, 8, 4, 86400, "x", true⟩],
     [⟨9, 8, 0, 6, .APPROVED, some 40, some 9, some 41, "", ""⟩], [], 3, 10⟩
    8 2 90000 ⟨2, 8, 4, 86400, "x", true⟩
    ⟨9, 8, 0, 6, .APPROVED, some 40, some 9, some 41, "", ""⟩
    (by decide) rfl (by decide) (by decide) (by decide)).1

/-- Sum split of the running-timer count over a cons cell. -/
theorem runningCount_cons (t : TimerSession) (ts : List TimerSession)
    (o : Nat) :
    runningCount (t :: ts) o =
      (if t.user == o && t.is_running then 1 else 0) + runningCount ts o := by
  rw [runningCount, runningCount, List.filter_cons]
  by_cases h : (t.user == o && t.is_running) = true <;> (simp [h]; try omega)

/-- Stopping one timer row never increases the running-timer count of any
owner. -/
theorem runningCount_map_stop_le (l : List TimerSession) (pk o : Nat) :
    runningCount (l.map fun t =>
        if t.id == pk then { t with is_running := false } else t) o ≤
      runningCount l o := by
  induction l with
  | nil => exact Nat.le_refl _
  | cons t ts ih =>
    rw [List.map_cons, runningCount_cons, runningCount_cons]
    have hhead : (if ((if t.id == pk then { t with is_running := false }
          else t).user == o &&
            (if t.id == pk then { t with is_running := false }
              else t).is_running) then 1 else 0) ≤
        (if t.user == o && t.is_running then 1 else 0) := by
      by_cases h0 : (t.id == pk) = true
      · simp only [if_pos h0, Bool.and_false]
        simp
      · rw [if_neg h0]
    exact Nat.add_le_add hhead ih

/-- The bucket resolver touches only the sheet rows: the timers are
unchanged. -/
theorem getOrCreateSheet_timers (s : State) (owner ws we : Nat) :
    (getOrCreateSheet s owner ws we).1.timers = s.timers := by
  rw [getOrCreateSheet]
  cases findSheet s.sheets owner ws <;> rfl

/-- `timer_stop` never increases any owner's running-timer count. -/
theorem runningCount_timer_stop_le (s : State) (owner pk nowSec o : Nat) :
    runningCount (timer_stop s owner pk nowSec).1.timers o ≤
      runningCount s.timers o := by
  rw [timer_stop]
  cases hf : s.timers.find? (fun t => t.id == pk && t.user == owner) with
  | none => exact Nat.le_refl _
  | some t =>
    cases hrun : t.is_running with
    | false => simp [hrun]
    | true =>
      simp only [hrun, Bool.not_true, Bool.false_eq_true, if_false]
      by_cases hg : ((getOrCreateSheet s owner
            (weekStartOf (dateOf t.start_time))
            (weekStartOf (dateOf t.start_time) + 6)).2.status != .DRAFT &&
          (getOrCreateSheet s owner (weekStartOf (dateOf t.start_time))
            (weekStartOf (dateOf t.start_time) + 6)).2.status != .REJECTED) =
          true
      · rw [if_pos hg]
        rw [stopTimer]
        simp only [getOrCreateSheet_timers]
        exact runningCount_map_stop_le s.timers pk o
      · rw [if_neg hg]
        rw [stopTimer]
        simp only [getOrCreateSheet_timers]
        exact runningCount_map_stop_le s.timers pk o

/-- `timer_start` preserves the at-most-one-running-timer bound. -/
theorem runningCount_timer_start_le (s : State) (owner proj nowSec : Nat)
    (desc : String) (o : Nat) (h : runningCount s.timers o ≤ 1) :
    runningCount (timer_start s owner proj nowSec desc).1.timers o ≤ 1 := by
  rw [timer_start]
  cases hf : s.timers.find? (fun t => t.user == owner && t.is_running) with
  | some t => exact h
  | none =>
    simp only
    rw [runningCount, List.filter_append, List.length_append]
    by_cases ho : (owner == o) = true
    · have ho2 : owner = o := by simpa using ho
      subst ho2
      have hall : ∀ x ∈ s.timers, ¬((x.user == owner && x.is_running) = true) := by
        intro x hx
        exact List.find?_eq_none.mp hf x hx
      have h0 : (s.timers.filter fun t => t.user == owner && t.is_running) =
          [] := by
        rw [List.filter_eq_nil_iff]
        exact hall
      rw [h0]
      simp
    · have h1 : (([(⟨s.nextTimerId, owner, proj, nowSec, desc, true⟩ :
            TimerSession)]).filter fun t => t.user == o && t.is_running) =
          [] := by
        simp [ho]
      rw [h1]
      simpa [runningCount] using h

/-- One timer request preserves the at-most-one-running bound for every
owner. -/
theorem runTimerOp_preserve (s : State) (op : TimerOp)
    (h : ∀ o, runningCount s.timers o ≤ 1) :
    ∀ o, runningCount (runTimerOp s op).timers o ≤ 1 := by
  intro o
  cases op with
  | start owner proj nowSec desc =>
    exact runningCount_timer_start_le s owner proj nowSec desc o (h o)
  | stop owner pk nowSec =>
    exact Nat.le_trans (runningCount_timer_stop_le s owner pk nowSec o) (h o)

/-- Any sequence of timer requests preserves the bound. -/
theorem runTimerOps_preserve (ops : List TimerOp) :
    ∀ s : State, (∀ o, runningCount s.timers o ≤ 1) →
      ∀ o, runningCount (runTimerOps s ops).timers o ≤ 1 := by
  induction ops with
  | nil => intro s h o; exact h o
  | cons op rest ih =>
    intro s h o
    rw [runTimerOps, List.foldl_cons]
    exact ih (runTimerOp s op) (runTimerOp_preserve s op h) o

/-- C5: from any store in which every owner has at most one running timer,
any sequence of start/stop requests keeps every owner's running-timer
count at most 1; `timer_start` fails with `TimerAlreadyRunning` and
changes nothing whenever a running session already exists for the owner,
and creates a running session (count exactly 1) only when none exists. -/
theorem timer_mutual_exclusion :
    ∀ s : State, (∀ o, runningCount s.timers o ≤ 1) →
      ((∀ (ops : List TimerOp) (o : Nat),
          runningCount (runTimerOps s ops).timers o ≤ 1)
        ∧ (∀ owner proj nowSec desc, 1 ≤ runningCount s.timers owner →
            timer_start s owner proj nowSec desc =
              (s, .error .TimerAlreadyRunning))
        ∧ (∀ owner proj nowSec desc, runningCount s.timers owner = 0 →
            (timer_start s owner proj nowSec desc).2 = .ok ()
            ∧ runningCount (timer_start s owner proj nowSec desc).1.timers
                owner = 1)) := by
  intro s h
  refine ⟨fun ops o => runTimerOps_preserve ops s h o, ?_, ?_⟩
  · intro owner proj nowSec desc hge
    have hex : ∃ x ∈ s.timers, (x.user == owner && x.is_running) = true := by
      by_contra hc
      push_neg at hc
      have hnil : (s.timers.filter fun t => t.user == owner && t.is_running) =
          [] := by
        rw [List.filter_eq_nil_iff]
        intro a ha hpa
        exact absurd hpa (hc a ha)
      rw [runningCount, hnil] at hge
      simp at hge
    cases hf : s.timers.find? (fun t => t.user == owner && t.is_running) with
    | none =>
      obtain ⟨x, hx, hpx⟩ := hex
      exact absurd hpx (List.find?_eq_none.mp hf x hx)
    | some t =>
      rw [timer_start, hf]
  · intro owner proj nowSec desc h0
    have hnil : (s.timers.filter fun t => t.user == owner && t.is_running) =
        [] := by
      have := h0
      rw [runningCount] at this
      exact List.length_eq_zero.mp this
    have hf : s.timers.find? (fun t => t.user == owner && t.is_running) =
        none := by
      rw [List.find?_eq_none]
      intro x hx
      intro hpx
      have : x ∈ s.timers.filter fun t => t.user == owner && t.is_running :=
        List.mem_filter.mpr ⟨hx, hpx⟩
      rw [hnil] at this
      cases this
    constructor
    · rw [timer_start, hf]
    · rw [timer_start, hf]
      simp only
      rw [runningCount, List.filter_append, List.length_append, hnil]
      simp

/-- Witness for `timer_mutual_exclusion`: a store holding one running
timer for owner 7; a second start for owner 7 is refused with the store
unchanged, and any start/stop sequence keeps the count at most 1. -/
theorem timer_mutual_exclusion_witness :
    runningCount (runTimerOps ⟨[⟨1, 7, 3, 0, "", true⟩], [], [], 2, 1⟩
        [.start 7 3 100 "", .stop 7 1 200, .start 7 3 300 ""]).timers 7 ≤ 1
    ∧ timer_start ⟨[⟨1, 7, 3, 0, "", true⟩], [], [], 2, 1⟩ 7 3 100 "" =
        (⟨[⟨1, 7, 3, 0, "", true⟩], [], [], 2, 1⟩,
         .error .TimerAlreadyRunning) :=
  have hinv : ∀ o,
      runningCount ([⟨1, 7, 3, 0, "", true⟩] : List TimerSession) o ≤ 1 :=
    fun o => Nat.le_trans (List.length_filter_le _ _) (by simp)
  ⟨(timer_mutual_exclusion ⟨[⟨1, 7, 3, 0, "", true⟩], [], [], 2, 1⟩ hinv).1
      [.start 7 3 100 "", .stop 7 1 200, .start 7 3 300 ""] 7,
   (timer_mutual_exclusion ⟨[⟨1, 7, 3, 0, "", true⟩], [], [], 2, 1⟩
      hinv).2.1 7 3 100 "" (by decide)⟩

/-- Rounding to two decimals is exact on values that are integer
multiples of 1/100. -/
theorem round2_eq_self_of_int (q : ℚ) (k : ℤ) (h : q * 100 = (k : ℚ)) :
    round2 q = q := by
  rw [round2, h, Int.floor_intCast]
  have h2 : (k : ℚ) - (k : ℚ) = 0 := sub_self _
  rw [h2]
  rw [if_pos (by norm_num : (0 : ℚ) < 1 / 2)]
  rw [eq_comm, eq_div_iff (by norm_num : (100 : ℚ) ≠ 0)]
  exact h

/-- For durations divisible by 3 minutes the per-entry conversion is
exact: `round(m/60, 2) = m/60`. -/
theorem duration_hours_of_three_dvd (m : Nat) (h : 3 ∣ m) :
    duration_hours m = (m : ℚ) / 60 := by
  obtain ⟨c, rfl⟩ := h
  apply round2_eq_self_of_int _ (5 * (c : ℤ))
  field_simp
  ring

/-- With all durations divisible by 3, the stored-model aggregate (sum of
per-entry rounded hours) equals the exact minute-sum divided by 60. -/
theorem sheet_total_hours_eq_of_dvd (entries : List TimeEntry)
    (h : ∀ e ∈ entries, 3 ∣ e.duration_minutes) :
    sheet_total_hours entries = (minuteSum entries : ℚ) / 60 := by
  induction entries with
  | nil => simp [sheet_total_hours, minuteSum]
  | cons e es ih =>
    rw [sheet_total_hours, List.map_cons, List.sum_cons,
      duration_hours_of_three_dvd e.duration_minutes (h e (by simp)),
      minuteSum, List.map_cons, List.sum_cons]
    have hes := ih (fun x hx => h x (by simp [hx]))
    rw [sheet_total_hours, minuteSum] at hes
    rw [hes]
    push_cast
    ring

/-- With all durations divisible by 3, the spec's convert-once aggregate
also equals the exact minute-sum divided by 60. -/
theorem specAggregateHours_eq_of_dvd (entries : List TimeEntry)
    (h : ∀ e ∈ entries, 3 ∣ e.duration_minutes) :
    specAggregateHours entries = (minuteSum entries : ℚ) / 60 := by
  rw [specAggregateHours]
  have hdvd : 3 ∣ minuteSum entries := by
    apply List.dvd_sum
    intro x hx
    obtain ⟨e, he, rfl⟩ := List.mem_map.mp hx
    exact h e he
  obtain ⟨c, hc⟩ := hdvd
  rw [hc]
  apply round2_eq_self_of_int _ (5 * (c : ℤ))
  push_cast
  field_simp
  ring

/-- C9 counterexample: two 50-minute entries.  The code sums the per-entry
rounded hour values, `0.83 + 0.83 = 1.66`, while the claimed
`toHours(sum of minutes)` gives `round(100/60, 2) = 1.67` — so the
aggregate is a sum of per-entry rounded hours, not
`toHours(sum of duration_minutes)`. -/
theorem aggregate_rounding_counterexample :
    sheet_total_hours
        [⟨7, 3, 0, 50, "a", .MANUAL, none, none, .PENDING, none, none, "",
          none⟩,
         ⟨7, 3, 1, 50, "b", .MANUAL, none, none, .PENDING, none, none, "",
          none⟩] = 166 / 100
    ∧ specAggregateHours
        [⟨7, 3, 0, 50, "a", .MANUAL, none, none, .PENDING, none, none, "",
          none⟩,
         ⟨7, 3, 1, 50, "b", .MANUAL, none, none, .PENDING, none, none, "",
          none⟩] = 167 / 100
    ∧ (166 : ℚ) / 100 ≠ 167 / 100 := by
  have h56 : round2 ((5 : ℚ) / 6) = 83 / 100 := by
    have hf : ⌊(5 : ℚ) / 6 * 100⌋ = 83 := by
      rw [Int.floor_eq_iff]
      constructor <;> norm_num
    rw [round2, hf]
    rw [if_pos (by push_cast; norm_num)]
    norm_num
  have h53 : round2 ((5 : ℚ) / 3) = 167 / 100 := by
    have hf : ⌊(5 : ℚ) / 3 * 100⌋ = 166 := by
      rw [Int.floor_eq_iff]
      constructor <;> norm_num
    rw [round2, hf]
    rw [if_neg (by push_cast; norm_num), if_pos (by push_cast; norm_num)]
    norm_num
  refine ⟨?_, ?_, by norm_num⟩
  · rw [sheet_total_hours]
    simp only [List.map_cons, List.map_nil, List.sum_cons, List.sum_nil,
      duration_hours]
    norm_num
    rw [h56]
    norm_num
  · rw [specAggregateHours, minuteSum]
    simp only [List.map_cons, List.map_nil, List.sum_cons, List.sum_nil]
    norm_num
    rw [h53]

/-- C9 (amended): the per-bundle and per-project total-hours aggregates
are computed on demand (they are derived properties, not stored fields) by
summing the attached entries' per-entry hour values, each rounded to two
decimals — a sum of rounded values rather than `toHours(sum of minutes)`.
The two ways of computing agree whenever every entry's duration is a
multiple of 3 minutes, and always agree on single-entry collections. -/
theorem aggregate_hours_characterization :
    ∀ (entries : List TimeEntry) (pid : Nat),
      ((∀ e ∈ entries, 3 ∣ e.duration_minutes) →
        sheet_total_hours entries = specAggregateHours entries
        ∧ project_total_hours pid entries =
            specAggregateHours (entries.filter fun e => e.project == pid))
      ∧ (∀ e : TimeEntry, sheet_total_hours [e] = specAggregateHours [e]) := by
  intro entries pid
  constructor
  · intro h
    constructor
    · rw [sheet_total_hours_eq_of_dvd entries h,
        specAggregateHours_eq_of_dvd entries h]
    · have hf : ∀ e ∈ entries.filter (fun e => e.project == pid),
          3 ∣ e.duration_minutes :=
        fun e he => h e (List.mem_of_mem_filter he)
      have hproj : project_total_hours pid entries =
          sheet_total_hours (entries.filter fun e => e.project == pid) := rfl
      rw [hproj, sheet_total_hours_eq_of_dvd _ hf,
        specAggregateHours_eq_of_dvd _ hf]
  · intro e
    rw [sheet_total_hours, specAggregateHours]
    simp [duration_hours, minuteSum]

/-- Witness for `aggregate_hours_characterization`: entries of 30 and 60
minutes (both multiples of 3) — the code's aggregate and the spec's
convert-once value coincide at 1.5 hours. -/
theorem aggregate_hours_characterization_witness :
    sheet_total_hours
        [⟨7, 3, 0, 30, "a", .MANUAL, none, none, .PENDING, none, none, "",
          none⟩,
         ⟨7, 3, 1, 60, "b", .MANUAL, none, none, .PENDING, none, none, "",
          none⟩]
      = specAggregateHours
        [⟨7, 3, 0, 30, "a", .MANUAL, none, none, .PENDING, none, none, "",
          none⟩,
         ⟨7, 3, 1, 60, "b", .MANUAL, none, none, .PENDING, none, none, "",
          none⟩] :=
  ((aggregate_hours_characterization
    [⟨7, 3, 0, 30, "a", .MANUAL, none, none, .PENDING, none, none, "", none⟩,
     ⟨7, 3, 1, 60, "b", .MANUAL, none, none, .PENDING, none, none, "", none⟩]
    3).1 (by decide)).1
